import Mathlib

/-!
Verification of the MIDI stream parser in `src/stream_parser.rs` (crate wmidi).

The source is a single-file byte-stream parser: a pure byte classifier
`get_byte_type` and a state machine `push` over a caller-supplied output
buffer. We embed it shallowly: `u8` values become `Nat` (every theorem that
needs it carries an explicit bound), the `[u8; N]` output buffer becomes a
`List Nat` of length `N` mutated with `List.set`, and the fallible
constructor (`panic!` when `N < 3`) becomes an `Option`.

Rust's indexing panics out of bounds, while `List.set` out of range is a
no-op; the buffer indices each `push` branch touches are therefore also
tracked separately by `pushAccesses`, which mirrors `push` branch for
branch, so that in-bounds claims can be stated about the source's accesses.
-/

namespace WMidi

/-- The parser state enum `MidiState` from the source, payloads included. -/
inductive MidiState where
  | ExpectAnyByte
  | ExpectOneDataByte (s : Nat)
  | ExpectFirstDataByte (s : Nat)
  | ExpectSecondDataByte (s : Nat) (b : Nat)
  | ExpectOneRunningByte (s : Nat)
  | ExpectTwoRunningBytes (s : Nat)
  | ExpectSysExData (n : Nat)
deriving DecidableEq, Repr

/-- The classifier output enum `ByteType` from the source. -/
inductive ByteType where
  | StatusByteOne (b : Nat)
  | StatusByteTwo (b : Nat)
  | DataByte (b : Nat)
  | PassThroughByte (b : Nat)
  | SysExStartByte (b : Nat)
  | SysExStopByte (b : Nat)
  | UndefinedByte
deriving DecidableEq, Repr

/-- `StreamParser::get_byte_type`, transcribed literally: the outer match on
`byte & 0x80`, the nested match on `byte & 0xf0` whose arms are the literal
constants `0xc | 0xd0` and `0x80 | 0x90 | 0xa | 0xb | 0xe` exactly as they
appear in the source, then the match on the 0xF0-page bytes. -/
def get_byte_type (byte : Nat) : ByteType :=
  if byte &&& 0x80 = 0x80 then
    let hi := byte &&& 0xf0
    if hi = 0xc ∨ hi = 0xd0 then ByteType.StatusByteOne byte
    else if hi = 0x80 ∨ hi = 0x90 ∨ hi = 0xa ∨ hi = 0xb ∨ hi = 0xe then
      ByteType.StatusByteTwo byte
    else if hi = 0xf0 then
      if byte = 0xf0 then ByteType.SysExStartByte byte
      else if byte = 0xf1 then ByteType.StatusByteOne byte
      else if byte = 0xf2 then ByteType.StatusByteTwo byte
      else if byte = 0xf3 then ByteType.StatusByteOne byte
      else if byte = 0xf7 then ByteType.SysExStopByte byte
      else if byte = 0xf6 ∨ byte = 0xf8 ∨ byte = 0xf9 ∨ byte = 0xfa ∨
              byte = 0xfb ∨ byte = 0xfc ∨ byte = 0xfd ∨ byte = 0xfe ∨
              byte = 0xff then ByteType.PassThroughByte byte
      else ByteType.UndefinedByte
    else ByteType.UndefinedByte
  else ByteType.DataByte byte

/-- The parser: the caller-supplied output buffer plus the decode state. -/
structure StreamParser where
  message_buffer : List Nat
  state : MidiState
deriving DecidableEq, Repr

/-- `StreamParser::new`: the source panics when `N < 3`; the panic is
modelled as `none`. -/
def new (message_buffer : List Nat) : Option StreamParser :=
  if message_buffer.length < 3 then none
  else some { message_buffer := message_buffer, state := MidiState.ExpectAnyByte }

/-- `StreamParser::push`, branch for branch. A returned slice
`&self.message_buffer[0..k]` becomes `List.take k` of the updated buffer. -/
def push (p : StreamParser) (byte : Nat) : StreamParser × Option (List Nat) :=
  match p.state, get_byte_type byte with
  | MidiState.ExpectFirstDataByte s, ByteType.DataByte b =>
      (⟨p.message_buffer, MidiState.ExpectSecondDataByte s b⟩, none)
  | MidiState.ExpectSecondDataByte s b1, ByteType.DataByte b2 =>
      let buf := ((p.message_buffer.set 0 s).set 1 b1).set 2 b2
      (⟨buf, MidiState.ExpectTwoRunningBytes s⟩, some (buf.take 3))
  | MidiState.ExpectOneDataByte s, ByteType.DataByte b =>
      let buf := (p.message_buffer.set 0 s).set 1 b
      (⟨buf, MidiState.ExpectOneRunningByte s⟩, some (buf.take 2))
  | MidiState.ExpectOneRunningByte s, ByteType.DataByte b =>
      let buf := (p.message_buffer.set 0 s).set 1 b
      (⟨buf, MidiState.ExpectOneRunningByte s⟩, some (buf.take 2))
  | MidiState.ExpectTwoRunningBytes s, ByteType.DataByte b =>
      (⟨p.message_buffer, MidiState.ExpectSecondDataByte s b⟩, none)
  | MidiState.ExpectSysExData n, ByteType.DataByte b =>
      (⟨p.message_buffer.set (n + 1) b, MidiState.ExpectSysExData (n + 1)⟩, none)
  | MidiState.ExpectSysExData n, ByteType.SysExStopByte b =>
      let buf := p.message_buffer.set (n + 1) b
      (⟨buf, MidiState.ExpectAnyByte⟩, some (buf.take (n + 2)))
  | _, ByteType.StatusByteOne s =>
      (⟨p.message_buffer, MidiState.ExpectOneDataByte s⟩, none)
  | _, ByteType.StatusByteTwo s =>
      (⟨p.message_buffer, MidiState.ExpectFirstDataByte s⟩, none)
  | _, ByteType.SysExStartByte s =>
      (⟨p.message_buffer.set 0 s, MidiState.ExpectSysExData 0⟩, none)
  | _, ByteType.PassThroughByte b =>
      let buf := p.message_buffer.set 0 b
      (⟨buf, p.state⟩, some (buf.take 1))
  | _, ByteType.UndefinedByte => (p, none)
  | _, _ => (⟨p.message_buffer, MidiState.ExpectAnyByte⟩, none)

/-- Feed a byte sequence one at a time, collecting each call's return. -/
def pushAll (p : StreamParser) : List Nat → StreamParser × List (Option (List Nat))
  | [] => (p, [])
  | b :: rest =>
      let r := push p b
      let rr := pushAll r.1 rest
      (rr.1, r.2 :: rr.2)

/-- The buffer indices the Rust `push` reads or writes in each branch:
writes `message_buffer[i] = _` contribute `i`, a returned slice
`&message_buffer[0..k]` reads indices `0..k-1`. Mirrors `push` branch for
branch. -/
def pushAccesses (st : MidiState) (byte : Nat) : List Nat :=
  match st, get_byte_type byte with
  | MidiState.ExpectFirstDataByte _, ByteType.DataByte _ => []
  | MidiState.ExpectSecondDataByte _ _, ByteType.DataByte _ => [0, 1, 2]
  | MidiState.ExpectOneDataByte _, ByteType.DataByte _ => [0, 1]
  | MidiState.ExpectOneRunningByte _, ByteType.DataByte _ => [0, 1]
  | MidiState.ExpectTwoRunningBytes _, ByteType.DataByte _ => []
  | MidiState.ExpectSysExData n, ByteType.DataByte _ => [n + 1]
  | MidiState.ExpectSysExData n, ByteType.SysExStopByte _ => List.range (n + 2)
  | _, ByteType.StatusByteOne _ => []
  | _, ByteType.StatusByteTwo _ => []
  | _, ByteType.SysExStartByte _ => [0]
  | _, ByteType.PassThroughByte _ => [0]
  | _, ByteType.UndefinedByte => []
  | _, _ => []

/-- The state transition alone (the new state never depends on the buffer). -/
def stepState (st : MidiState) (byte : Nat) : MidiState :=
  (push ⟨[], st⟩ byte).1.state

/-- The buffer indices accessed over a whole run of pushes. -/
def runAccesses (st : MidiState) : List Nat → List Nat
  | [] => []
  | b :: rest => pushAccesses st b ++ runAccesses (stepState st b) rest

/-- A value below `0x80` has bit 7 clear, so the classifier returns
`DataByte`. -/
lemma get_byte_type_data (d : Nat) (h : d < 0x80) :
    get_byte_type d = ByteType.DataByte d := by
  have h80 : d &&& 0x80 = 0 := by
    have e : (0x80 : Nat) = 2 ^ 7 := by norm_num
    rw [e, Nat.and_two_pow, Nat.testBit_eq_false_of_lt (by simpa using h)]
    rfl
  simp [get_byte_type, h80]

/-- The pass-through bytes of the source: `0xF6` and `0xF8`-`0xFF`. -/
lemma get_byte_type_passthrough (b : Nat)
    (h : b = 0xF6 ∨ (0xF8 ≤ b ∧ b ≤ 0xFF)) :
    get_byte_type b = ByteType.PassThroughByte b := by
  rcases h with rfl | ⟨h1, h2⟩
  · decide
  · interval_cases b <;> decide

/-- C1: false on the code. The match arm in `get_byte_type` reads
`0x80 | 0x90 | 0xa | 0xb | 0xe`, so `byte & 0xf0` values `0xa0`, `0xb0`
and `0xe0` (Poly Pressure, Control Change, Pitch Bend) fall through to
`UndefinedByte` and are dropped: pushing `[0xA0, 0x60, 0x61]` into a fresh
parser yields three `None`s, where the claim (and the evident intent,
`0xa0 | 0xb0 | 0xe0`) requires `Some [0xA0, 0x60, 0x61]` on the third push. -/
theorem c1_two_data_byte_bug :
    get_byte_type 0xA0 = ByteType.UndefinedByte ∧
    get_byte_type 0xB0 = ByteType.UndefinedByte ∧
    get_byte_type 0xE0 = ByteType.UndefinedByte ∧
    (pushAll ⟨[0, 0, 0], MidiState.ExpectAnyByte⟩ [0xA0, 0x60, 0x61]).2 =
      [none, none, none] := by
  decide

/-- C2: false on the code. The match arm in `get_byte_type` reads
`0xc | 0xd0`, so `byte & 0xf0 = 0xc0` (Program Change) falls through to
`UndefinedByte`: pushing `[0xC0, 0x40]` into a fresh parser yields
`None, None`, where the claim (and the evident intent, `0xc0 | 0xd0`)
requires `Some [0xC0, 0x40]` on the second push. -/
theorem c2_one_data_byte_bug :
    get_byte_type 0xC0 = ByteType.UndefinedByte ∧
    (pushAll ⟨[0, 0, 0], MidiState.ExpectAnyByte⟩ [0xC0, 0x40]).2 =
      [none, none] := by
  decide

/-- C3: running status. From `ExpectTwoRunningBytes s` (the state entered the
moment a two-data-byte message with status `s` is emitted), two further data
bytes yield `None` then `Some [s, d1, d2]`; from `ExpectOneRunningByte s`
(entered the moment a one-data-byte message with status `s` is emitted), one
further data byte yields `Some [s, d]`. -/
theorem c3_running_status (buf : List Nat) (s d1 d2 d : Nat)
    (hbuf : 3 ≤ buf.length) (h1 : d1 < 0x80) (h2 : d2 < 0x80) (hd : d < 0x80) :
    (push ⟨buf, MidiState.ExpectTwoRunningBytes s⟩ d1).2 = none ∧
    (push (push ⟨buf, MidiState.ExpectTwoRunningBytes s⟩ d1).1 d2).2 =
      some [s, d1, d2] ∧
    (push ⟨buf, MidiState.ExpectOneRunningByte s⟩ d).2 = some [s, d] := by
  rcases buf with _ | ⟨a, _ | ⟨b, _ | ⟨c, rest⟩⟩⟩
  · simp at hbuf
  · simp at hbuf
  · simp at hbuf
  · simp [push, get_byte_type_data _ h1, get_byte_type_data _ h2,
      get_byte_type_data _ hd]

/-- C3 witness at status `0x90`, data bytes `5, 6, 7`. -/
theorem c3_running_status_witness :
    (push ⟨[0, 0, 0], MidiState.ExpectTwoRunningBytes 0x90⟩ 5).2 = none ∧
    (push (push ⟨[0, 0, 0], MidiState.ExpectTwoRunningBytes 0x90⟩ 5).1 6).2 =
      some [0x90, 5, 6] ∧
    (push ⟨[0, 0, 0], MidiState.ExpectOneRunningByte 0x90⟩ 7).2 =
      some [0x90, 7] :=
  c3_running_status [0, 0, 0] 0x90 5 6 7 (by decide) (by decide) (by decide)
    (by decide)

/-- C5: a pass-through byte (`0xF6`, `0xF8`-`0xFF`) is emitted immediately as
a one-byte message from every parser state, and the decode state field is
left exactly as it was. -/
theorem c5_passthrough_immediate (p : StreamParser) (b : Nat)
    (hlen : 3 ≤ p.message_buffer.length)
    (hb : b = 0xF6 ∨ (0xF8 ≤ b ∧ b ≤ 0xFF)) :
    (push p b).2 = some [b] ∧ (push p b).1.state = p.state := by
  have hbt := get_byte_type_passthrough b hb
  obtain ⟨buf, st⟩ := p
  rcases buf with _ | ⟨a, t⟩
  · simp at hlen
  · cases st <;> simp [push, hbt]

/-- C5 witness: Timing Clock `0xF8` mid-accumulation. -/
theorem c5_passthrough_immediate_witness :
    (push ⟨[1, 2, 3], MidiState.ExpectFirstDataByte 0x90⟩ 0xF8).2 =
      some [0xF8] ∧
    (push ⟨[1, 2, 3], MidiState.ExpectFirstDataByte 0x90⟩ 0xF8).1.state =
      MidiState.ExpectFirstDataByte 0x90 :=
  c5_passthrough_immediate ⟨[1, 2, 3], MidiState.ExpectFirstDataByte 0x90⟩
    0xF8 (by decide) (by decide)

/-- C7: the undefined bytes `0xF4` and `0xF5` classify as `UndefinedByte`,
whose branch returns `None` and leaves the whole parser (state and buffer)
untouched. -/
theorem c7_undefined_dropped (p : StreamParser) (b : Nat)
    (hb : b = 0xF4 ∨ b = 0xF5) :
    push p b = (p, none) := by
  have hbt : get_byte_type b = ByteType.UndefinedByte := by
    rcases hb with rfl | rfl <;> decide
  obtain ⟨buf, st⟩ := p
  cases st <;> simp [push, hbt]

/-- C7 witness: `0xF4` mid-SysEx. -/
theorem c7_undefined_dropped_witness :
    push ⟨[0xF0, 9, 0], MidiState.ExpectSysExData 1⟩ 0xF4 =
      (⟨[0xF0, 9, 0], MidiState.ExpectSysExData 1⟩, none) :=
  c7_undefined_dropped ⟨[0xF0, 9, 0], MidiState.ExpectSysExData 1⟩ 0xF4
    (by decide)

/-- C8: a data byte in the idle state hits the catch-all arm, which returns
`None` and re-enters `ExpectAnyByte` without touching the buffer, so the
parser configuration is exactly the fresh one and every subsequent run is
identical to a run on a fresh parser. -/
theorem c8_resynchronization (buf : List Nat) (d : Nat) (hd : d < 0x80) :
    push ⟨buf, MidiState.ExpectAnyByte⟩ d =
      (⟨buf, MidiState.ExpectAnyByte⟩, none) ∧
    ∀ rest, pushAll (push ⟨buf, MidiState.ExpectAnyByte⟩ d).1 rest =
      pushAll ⟨buf, MidiState.ExpectAnyByte⟩ rest := by
  have hbt := get_byte_type_data d hd
  have h1 : push ⟨buf, MidiState.ExpectAnyByte⟩ d =
      (⟨buf, MidiState.ExpectAnyByte⟩, none) := by
    simp [push, hbt]
  exact ⟨h1, fun rest => by rw [h1]⟩

/-- C8 witness: stray data byte `0x42`, then a complete Note On. -/
theorem c8_resynchronization_witness :
    push ⟨[0, 0, 0], MidiState.ExpectAnyByte⟩ 0x42 =
      (⟨[0, 0, 0], MidiState.ExpectAnyByte⟩, none) ∧
    ∀ rest, pushAll (push ⟨[0, 0, 0], MidiState.ExpectAnyByte⟩ 0x42).1 rest =
      pushAll ⟨[0, 0, 0], MidiState.ExpectAnyByte⟩ rest :=
  c8_resynchronization [0, 0, 0] 0x42 (by decide)

/-- C9: construction fails (the source panics, modelled as `none`) exactly
when the buffer is shorter than 3 bytes; otherwise it succeeds with initial
state `ExpectAnyByte`. -/
theorem c9_new_buffer_length (buf : List Nat) :
    (buf.length < 3 → new buf = none) ∧
    (3 ≤ buf.length → new buf = some ⟨buf, MidiState.ExpectAnyByte⟩) := by
  constructor
  · intro h
    simp only [new]
    rw [if_pos h]
  · intro h
    simp only [new]
    rw [if_neg (by omega)]

/-- C9 witness: length 2 fails, length 3 succeeds idle. -/
theorem c9_new_buffer_length_witness :
    new [0, 0] = none ∧
    new [0, 0, 0] = some ⟨[0, 0, 0], MidiState.ExpectAnyByte⟩ :=
  ⟨(c9_new_buffer_length [0, 0]).1 (by decide),
   (c9_new_buffer_length [0, 0, 0]).2 (by decide)⟩

/-- Taking one past an append boundary picks up the head of the suffix. -/
lemma take_append_cons (pre : List Nat) (x : Nat) (t : List Nat) :
    (pre ++ x :: t).take (pre.length + 1) = pre ++ [x] := by
  induction pre with
  | nil => simp
  | cons a pre ih => simp [ih]

/-- Setting at the append boundary writes into the head of the suffix. -/
lemma set_append_length (pre rest : List Nat) (v : Nat) :
    (pre ++ rest).set pre.length v = pre ++ rest.set 0 v := by
  induction pre with
  | nil => simp
  | cons a pre ih => simp [ih]

/-- SysEx accumulation run: from `ExpectSysExData n` with the message so far
(`pre`, of length `n + 1`) at the front of the buffer, feeding data bytes
`ds` and then the stop byte returns `None` for each data byte and finally
the whole message `pre ++ ds ++ [0xF7]`. -/
lemma sysex_run (ds : List Nat) :
    ∀ (pre rest : List Nat) (n : Nat), pre.length = n + 1 →
    (∀ d ∈ ds, d < 0x80) → ds.length + 1 ≤ rest.length →
    (pushAll ⟨pre ++ rest, MidiState.ExpectSysExData n⟩ (ds ++ [0xF7])).2 =
      List.replicate ds.length none ++ [some (pre ++ ds ++ [0xF7])] := by
  induction ds with
  | nil =>
    intro pre rest n hlen hds hrest
    rcases rest with _ | ⟨r, t⟩
    · simp at hrest
    · have hstop : get_byte_type 0xF7 = ByteType.SysExStopByte 0xF7 := by decide
      have hbuf : (pre ++ r :: t).set (n + 1) 0xF7 = pre ++ 0xF7 :: t := by
        rw [← hlen, set_append_length]
        rfl
      have htake : (pre ++ 0xF7 :: t).take (n + 2) = pre ++ [0xF7] := by
        have e : n + 2 = pre.length + 1 := by omega
        rw [e, take_append_cons]
      simp [pushAll, push, hstop, hbuf, htake]
  | cons d ds ih =>
    intro pre rest n hlen hds hrest
    rcases rest with _ | ⟨r, t⟩
    · simp at hrest
    · have hd : d < 0x80 := hds d (by simp)
      have hbuf : (pre ++ r :: t).set (n + 1) d = pre ++ d :: t := by
        rw [← hlen, set_append_length]
        rfl
      have hih := ih (pre ++ [d]) t (n + 1) (by simp [hlen])
        (fun x hx => hds x (by simp [hx]))
        (by simp only [List.length_cons] at hrest; simpa using hrest)
      simp only [List.append_assoc, List.singleton_append] at hih
      simp [pushAll, push, get_byte_type_data d hd, hbuf, hih,
        List.replicate_succ]

/-- C4: a full system-exclusive sequence `0xF0, d1, ..., dk, 0xF7` that fits
in the buffer (`k + 2 <= N`) pushed into a fresh parser returns `None` for
every byte except the final stop byte, which returns the whole sequence. -/
theorem c4_sysex_roundtrip (buf ds : List Nat) (hds : ∀ d ∈ ds, d < 0x80)
    (h3 : 3 ≤ buf.length) (hcap : ds.length + 2 ≤ buf.length) :
    (pushAll ⟨buf, MidiState.ExpectAnyByte⟩ (0xF0 :: (ds ++ [0xF7]))).2 =
      List.replicate (ds.length + 1) none ++
        [some (0xF0 :: (ds ++ [0xF7]))] := by
  rcases buf with _ | ⟨b0, t⟩
  · simp at h3
  · have hstart : get_byte_type 0xF0 = ByteType.SysExStartByte 0xF0 := by decide
    have hrun := sysex_run ds [0xF0] t 0 (by simp) hds
      (by simp only [List.length_cons] at hcap; omega)
    simp only [List.singleton_append] at hrun
    simp [pushAll, push, hstart, hrun, List.replicate_succ]

/-- C4 witness: SysEx `[0xF0, 1, 2, 0xF7]` in a 5-byte buffer. -/
theorem c4_sysex_roundtrip_witness :
    (pushAll ⟨[0, 0, 0, 0, 0], MidiState.ExpectAnyByte⟩
      (0xF0 :: ([1, 2] ++ [0xF7]))).2 =
      List.replicate ([1, 2].length + 1) none ++
        [some (0xF0 :: ([1, 2] ++ [0xF7]))] :=
  c4_sysex_roundtrip [0, 0, 0, 0, 0] [1, 2] (by decide) (by decide) (by decide)

/-- C6 counterexample: a Timing Clock byte `0xF8` interleaved inside the
SysEx `[0xF0, 0x10, 0x20, 0xF7]` overwrites buffer index 0, so completing
the SysEx emits `[0xF8, 0x10, 0x20, 0xF7]` — not the `[0xF0, 0x10, 0x20,
0xF7]` the same stream emits without the interleaved byte, refuting the
claim's SysEx case. -/
theorem c6_passthrough_cex :
    (pushAll ⟨[0, 0, 0, 0, 0], MidiState.ExpectAnyByte⟩
      [0xF0, 0x10, 0xF8, 0x20, 0xF7]).2 =
      [none, none, some [0xF8], none, some [0xF8, 0x10, 0x20, 0xF7]] ∧
    (pushAll ⟨[0, 0, 0, 0, 0], MidiState.ExpectAnyByte⟩
      [0xF0, 0x10, 0x20, 0xF7]).2 =
      [none, none, none, some [0xF0, 0x10, 0x20, 0xF7]] := by
  decide

/-- C6 amended: a pass-through byte leaves the decode state unchanged, so a
channel (one- or two-data-byte) message in progress — whose accumulated
bytes live in the state, not the buffer — completes to exactly the bytes it
would have produced without the interleaved byte, from every accumulation
state. But an in-progress system-exclusive message, whose accumulated bytes
live in the buffer, is corrupted: the pass-through write to buffer index 0
replaces the message's first byte, and the SysEx is eventually emitted with
the pass-through byte in place of `0xF0`. -/
theorem c6_passthrough_amended (buf : List Nat) (s b d1 d2 d : Nat)
    (hbuf : 3 ≤ buf.length)
    (hb : b = 0xF6 ∨ (0xF8 ≤ b ∧ b ≤ 0xFF))
    (h1 : d1 < 0x80) (h2 : d2 < 0x80) (hd : d < 0x80) :
    ((pushAll ⟨buf, MidiState.ExpectFirstDataByte s⟩ [b, d1, d2]).2 =
      [some [b], none, some [s, d1, d2]] ∧
    (pushAll ⟨buf, MidiState.ExpectSecondDataByte s d1⟩ [b, d2]).2 =
      [some [b], some [s, d1, d2]] ∧
    (pushAll ⟨buf, MidiState.ExpectOneDataByte s⟩ [b, d]).2 =
      [some [b], some [s, d]] ∧
    (pushAll ⟨buf, MidiState.ExpectTwoRunningBytes s⟩ [b, d1, d2]).2 =
      [some [b], none, some [s, d1, d2]] ∧
    (pushAll ⟨buf, MidiState.ExpectOneRunningByte s⟩ [b, d]).2 =
      [some [b], some [s, d]]) ∧
    ∀ (p0 : Nat) (ptail rest ds : List Nat) (n : Nat),
      (p0 :: ptail).length = n + 1 → (∀ x ∈ ds, x < 0x80) →
      ds.length + 1 ≤ rest.length →
      (pushAll ⟨(p0 :: ptail) ++ rest, MidiState.ExpectSysExData n⟩
        (b :: (ds ++ [0xF7]))).2 =
        some [b] :: (List.replicate ds.length none ++
          [some ((b :: ptail) ++ ds ++ [0xF7])]) := by
  have hbt := get_byte_type_passthrough b hb
  constructor
  · rcases buf with _ | ⟨a, _ | ⟨a2, _ | ⟨a3, t⟩⟩⟩
    · simp at hbuf
    · simp at hbuf
    · simp at hbuf
    · refine ⟨?_, ?_, ?_, ?_, ?_⟩ <;>
        simp [pushAll, push, hbt, get_byte_type_data _ h1,
          get_byte_type_data _ h2, get_byte_type_data _ hd]
  · intro p0 ptail rest ds n hlen hds hrest
    have hrun := sysex_run ds (b :: ptail) rest n (by simpa using hlen) hds
      hrest
    simp only [List.cons_append, List.append_assoc] at hrun
    simp [pushAll, push, hbt, hrun]

/-- C6 amended witness: Timing Clock inside a Note On accumulation and
inside a SysEx. -/
theorem c6_passthrough_amended_witness :
    (pushAll ⟨[0, 0, 0], MidiState.ExpectFirstDataByte 0x90⟩
      [0xF8, 5, 6]).2 = [some [0xF8], none, some [0x90, 5, 6]] ∧
    (pushAll ⟨[0xF0, 9, 0, 0, 0], MidiState.ExpectSysExData 1⟩
      (0xF8 :: ([3] ++ [0xF7]))).2 =
      some [0xF8] :: (List.replicate [3].length none ++
        [some ((0xF8 :: [9]) ++ [3] ++ [0xF7])]) := by
  have h := c6_passthrough_amended [0, 0, 0] 0x90 0xF8 5 6 7 (by decide)
    (by decide) (by decide) (by decide) (by decide)
  have h2 := c6_passthrough_amended [0, 0, 0] 0x90 0xF8 5 6 7 (by decide)
    (by decide) (by decide) (by decide) (by decide)
  exact ⟨h.1.1, by
    have := h2.2 0xF0 [9] [0, 0, 0] [3] 1 (by decide) (by decide) (by decide)
    simpa using this⟩

set_option maxHeartbeats 1000000 in
/-- Only the byte `0xF0` classifies as `SysExStartByte`. -/
lemma get_byte_type_sysexstart (b s : Nat)
    (h : get_byte_type b = ByteType.SysExStartByte s) : b = 0xF0 := by
  simp only [get_byte_type] at h
  split_ifs at h
  assumption

set_option maxHeartbeats 1000000 in
/-- The state transition computed by `push` ignores the buffer. -/
lemma push_state_eq_stepState (buf : List Nat) (st : MidiState) (b : Nat) :
    (push ⟨buf, st⟩ b).1.state = stepState st b := by
  cases st <;> cases hbt : get_byte_type b <;>
    simp only [push, stepState, hbt]

/-- A byte other than `0xF0` never moves the parser out of a non-SysEx
state into a SysEx state. -/
lemma stepState_not_sysex (st : MidiState) (b : Nat)
    (hst : ∀ n, st ≠ MidiState.ExpectSysExData n) (hb : b ≠ 0xF0) :
    ∀ n, stepState st b ≠ MidiState.ExpectSysExData n := by
  intro n
  cases st <;> cases hbt : get_byte_type b <;>
    first
      | exact absurd rfl (hst _)
      | exact absurd (get_byte_type_sysexstart b _ hbt) hb
      | simp [stepState, push, hbt]

/-- In a non-SysEx state every buffer access of `push` is at index 0, 1
or 2. -/
lemma pushAccesses_lt_three (st : MidiState) (b : Nat)
    (hst : ∀ n, st ≠ MidiState.ExpectSysExData n) :
    ∀ i ∈ pushAccesses st b, i < 3 := by
  intro i hi
  cases st <;> cases hbt : get_byte_type b <;>
    first
      | exact absurd rfl (hst _)
      | (simp_all [pushAccesses, hbt]; try omega)

/-- From a non-SysEx start, a run containing no `0xF0` only ever accesses
indices 0, 1, 2. -/
lemma runAccesses_lt_three (bytes : List Nat) :
    ∀ st, (∀ n, st ≠ MidiState.ExpectSysExData n) → 0xF0 ∉ bytes →
    ∀ i ∈ runAccesses st bytes, i < 3 := by
  induction bytes with
  | nil =>
    intro st hst hmem i hi
    simp [runAccesses] at hi
  | cons b rest ih =>
    intro st hst hmem i hi
    have hb : b ≠ 0xF0 := by
      intro h
      exact hmem (by simp [h])
    simp only [runAccesses, List.mem_append] at hi
    rcases hi with hi | hi
    · exact pushAccesses_lt_three st b hst i hi
    · exact ih (stepState st b) (stepState_not_sysex st b hst hb)
        (fun h => hmem (by simp [h])) i hi

/-- An access at index 3 or beyond can only come from a SysEx state, and
then only at the next write position `n + 1` or inside the emitted slice
below it. -/
lemma pushAccesses_ge_three_sysex (st : MidiState) (b i : Nat)
    (hi : i ∈ pushAccesses st b) (h3 : 3 ≤ i) :
    ∃ n, st = MidiState.ExpectSysExData n ∧ i ≤ n + 1 := by
  by_cases hsys : ∃ n, st = MidiState.ExpectSysExData n
  · obtain ⟨n, rfl⟩ := hsys
    refine ⟨n, rfl, ?_⟩
    cases hbt : get_byte_type b <;> (simp_all [pushAccesses, hbt]; try omega)
  · exfalso
    have hlt := pushAccesses_lt_three st b
      (fun n h => hsys ⟨n, h⟩) i hi
    omega

/-- C10: part one, a run from a fresh parser whose bytes contain no `0xF0`
only accesses buffer indices 0, 1, 2, in bounds for every capacity
`N >= 3`; part two, any access at index 3 or beyond happens in state
`ExpectSysExData n` at index at most `n + 1`, i.e. while writing or
emitting a system-exclusive message that already holds `n + 1` bytes — so
an out-of-bounds access (index `>= N >= 3`) occurs only once the
accumulated SysEx message no longer fits the buffer. -/
theorem c10_buffer_access_bounds :
    (∀ (bytes : List Nat), 0xF0 ∉ bytes →
      ∀ i ∈ runAccesses MidiState.ExpectAnyByte bytes, i < 3) ∧
    (∀ (st : MidiState) (b i : Nat), i ∈ pushAccesses st b → 3 ≤ i →
      ∃ n, st = MidiState.ExpectSysExData n ∧ i ≤ n + 1) := by
  constructor
  · intro bytes hmem i hi
    exact runAccesses_lt_three bytes MidiState.ExpectAnyByte
      (fun n h => MidiState.noConfusion h) hmem i hi
  · intro st b i hi h3
    exact pushAccesses_ge_three_sysex st b i hi h3

/-- C10 witness: a Note On run accesses only index 2 and below; a SysEx
write at index 6 comes from state `ExpectSysExData 5`. -/
theorem c10_buffer_access_bounds_witness :
    (2 : Nat) < 3 ∧
    ∃ n, MidiState.ExpectSysExData 5 = MidiState.ExpectSysExData n ∧
      (6 : Nat) ≤ n + 1 :=
  ⟨c10_buffer_access_bounds.1 [0x90, 5, 6] (by decide) 2 (by decide),
   c10_buffer_access_bounds.2 (MidiState.ExpectSysExData 5) 7 6 (by decide)
     (by decide)⟩
